import Mathlib

/-!
Shallow embedding of the torrust-tracker core (the `bittorrent-tracker-core`
package and the UDP server layer) with proofs about the announce, scrape,
authentication, whitelist, key-generation, maintenance and UDP-cookie
behaviour.

Conventions of the embedding:

* 20-byte identifiers (`InfoHash`, `PeerId`) and 32-character authentication
  keys are abstracted to `Nat`: the code only compares them for equality.
* Machine integers are modelled as `Nat`/`Int`; where overflow matters
  (the `u64` seconds of `DurationSinceUnixEpoch`) the bound `2 ^ 64` is
  explicit.
* The torrent repository's top-level map (a concurrent skip-list map in the
  source) is modelled as a function `InfoHash → Option TorrentEntry`.
* Fallible Rust code returning `Result` is modelled with `Except`; a Rust
  `unwrap` (panic) is modelled by an `Option` result where `none` is the
  panic.
* Operations of the `torrust-tracker-torrent-repository` crate (the
  torrent-entry internals), of the `torrust-tracker-primitives` crate
  (`ScrapeData`) and the UDP `connection_cookie::check` function are not part
  of the sources under verification; those definitions are modelled from the
  specification and marked `Modelled from the spec:` in their doc comments.
-/

/-- A torrent identifier (20-byte SHA-1 in the source, abstracted). -/
abbrev InfoHash := Nat

/-- A peer identifier (20-byte opaque id in the source, abstracted). -/
abbrev PeerId := Nat

/-- An authentication key (32 ASCII alphanumeric characters in the source,
abstracted: the core only compares keys for equality). -/
abbrev Key := Nat

/-- A socket address `(ip, port)`. The ip is abstracted to a `Nat` code since
the core only compares peer addresses for equality when filtering the
requester out of a peer list. -/
structure SocketAddr where
  ip : Nat
  port : Nat
deriving DecidableEq, Repr

/-- The announce event of `aquatic_udp_protocol::AnnounceEvent`. -/
inductive AnnounceEvent where
  | none
  | started
  | completed
  | stopped
deriving DecidableEq, Repr

/-- `torrust_tracker_primitives::peer::Peer`: the tracker's view of one
client for one torrent. `updated` is whole seconds since the Unix epoch. -/
structure Peer where
  peer_id : PeerId
  peer_addr : SocketAddr
  updated : Nat
  uploaded : Int
  downloaded : Int
  left : Int
  event : AnnounceEvent
deriving DecidableEq, Repr

/-- `torrust_tracker_primitives::swarm_metadata::SwarmMetadata`. -/
structure SwarmMetadata where
  complete : Nat
  incomplete : Nat
  downloaded : Nat
deriving DecidableEq, Repr

/-- `SwarmMetadata::zeroed()`. -/
def SwarmMetadata.zeroed : SwarmMetadata :=
  { complete := 0, incomplete := 0, downloaded := 0 }

/-- A torrent entry: the per-infohash peer table (keyed by `PeerId`) and the
lifetime `downloaded` counter. The peer table of the source
(`torrust-tracker-torrent-repository` crate) is a `BTreeMap<PeerId, Peer>`;
it is modelled as a list in which `peer_id` keys are unique (all operations
below preserve that). -/
structure TorrentEntry where
  peers : List Peer
  downloaded : Nat
deriving DecidableEq, Repr

/-- A fresh, empty torrent entry (created lazily on first announce). -/
def TorrentEntry.new : TorrentEntry :=
  { peers := [], downloaded := 0 }

/-- Whether `pid` is present in the entry's peer table. -/
def TorrentEntry.hasPeer (e : TorrentEntry) (pid : PeerId) : Bool :=
  e.peers.any (fun q => q.peer_id = pid)

/-- Modelled from the spec: `Entry::upsert_peer` of the
`torrust-tracker-torrent-repository` crate (not under the verified sources).
Spec §4.1: "Creates torrent entry if absent. If the peer's
`event == Completed` and that PeerId was already present in the entry before
this call, increments `downloaded` by 1. Replaces the peer record." -/
def TorrentEntry.upsert_peer (e : TorrentEntry) (p : Peer) : TorrentEntry :=
  let known := e.hasPeer p.peer_id
  { peers := (e.peers.filter (fun q => q.peer_id ≠ p.peer_id)) ++ [p]
    downloaded :=
      if p.event = AnnounceEvent.completed ∧ known then e.downloaded + 1
      else e.downloaded }

/-- Modelled from the spec: `Entry::get_swarm_metadata` of the
`torrust-tracker-torrent-repository` crate. `complete` counts the peers of
the table with `left == 0` (seeders), `incomplete` those with `left ≠ 0`
(leechers); `downloaded` is the entry's counter. Activity filtering is done
by the maintenance sweep, not here. -/
def TorrentEntry.get_swarm_metadata (e : TorrentEntry) : SwarmMetadata :=
  { complete := (e.peers.filter (fun p => p.left = 0)).length
    incomplete := (e.peers.filter (fun p => p.left ≠ 0)).length
    downloaded := e.downloaded }

/-- Modelled from the spec: `Entry::get_peers_for_client` of the
`torrust-tracker-torrent-repository` crate. Returns up to `limit` peers of
the table, excluding any peer whose socket address equals the requesting
client's. -/
def TorrentEntry.get_peers_for_client (e : TorrentEntry) (client_addr : SocketAddr)
    (limit : Nat) : List Peer :=
  (e.peers.filter (fun p => p.peer_addr ≠ client_addr)).take limit

/-- Modelled from the spec: `Entry::remove_inactive_peers` of the
`torrust-tracker-torrent-repository` crate. Spec §4.1: "Drops peers whose
`updated < cutoff`". -/
def TorrentEntry.remove_inactive_peers (e : TorrentEntry) (cutoff : Nat) : TorrentEntry :=
  { e with peers := e.peers.filter (fun p => ¬ p.updated < cutoff) }

/-- The top-level torrents map of `InMemoryTorrentRepository` (a
`SkipMap<InfoHash, Entry>` in the source), modelled as a partial map. -/
abbrev Torrents := InfoHash → Option TorrentEntry

/-- Map lookup (`torrents.get(info_hash)`). -/
def Torrents.get (ts : Torrents) (ih : InfoHash) : Option TorrentEntry :=
  ts ih

/-- Map insert/replace of one entry. -/
def Torrents.set (ts : Torrents) (ih : InfoHash) (e : TorrentEntry) : Torrents :=
  fun k => if k = ih then some e else ts k

/-- The constant `torrust_tracker_configuration::TORRENT_PEERS_LIMIT`. -/
def TORRENT_PEERS_LIMIT : Nat := 74

/-- `InMemoryTorrentRepository::upsert_peer`: inserts (or updates) the peer
in the torrent entry, creating the entry if absent. -/
def InMemoryTorrentRepository.upsert_peer (ts : Torrents) (ih : InfoHash) (p : Peer) :
    Torrents :=
  let e := (Torrents.get ts ih).getD TorrentEntry.new
  Torrents.set ts ih (e.upsert_peer p)

/-- `InMemoryTorrentRepository::get_swarm_metadata`: the data for a `scrape`
response, `SwarmMetadata::zeroed()` if the torrent is not found. -/
def InMemoryTorrentRepository.get_swarm_metadata (ts : Torrents) (ih : InfoHash) :
    SwarmMetadata :=
  match Torrents.get ts ih with
  | some torrent_entry => torrent_entry.get_swarm_metadata
  | none => SwarmMetadata.zeroed

/-- `InMemoryTorrentRepository::get_peers_for`: torrent peers for a given
torrent and client, filtering out the client making the request. The source
passes `max(limit, TORRENT_PEERS_LIMIT)` — `max`, not `min` — down to the
entry (in_memory.rs line 76). -/
def InMemoryTorrentRepository.get_peers_for (ts : Torrents) (ih : InfoHash) (peer : Peer)
    (limit : Nat) : List Peer :=
  match Torrents.get ts ih with
  | none => []
  | some entry => entry.get_peers_for_client peer.peer_addr (max limit TORRENT_PEERS_LIMIT)

/-- `InMemoryTorrentRepository::remove_inactive_peers`: drops, across all
entries, the peers whose `updated` is before the cutoff. -/
def InMemoryTorrentRepository.remove_inactive_peers (ts : Torrents) (cutoff : Nat) :
    Torrents :=
  fun k => (ts k).map (fun e => e.remove_inactive_peers cutoff)

/-- Modelled from the spec: `InMemoryTorrentRepository::remove_peerless_torrents`
delegates to the `torrust-tracker-torrent-repository` crate (not under the
verified sources). Spec §4.1: "Drops entries with empty peer tables." -/
def InMemoryTorrentRepository.remove_peerless_torrents (ts : Torrents) : Torrents :=
  fun k =>
    match ts k with
    | some e => if e.peers.isEmpty then none else some e
    | none => none

/-- `announce_handler::PeersWanted`: how many peers the client wants. -/
inductive PeersWanted where
  | asManyAsPossible
  | only (amount : Nat)
deriving DecidableEq, Repr

/-- `PeersWanted::limit()`. -/
def PeersWanted.limit : PeersWanted → Nat
  | .asManyAsPossible => TORRENT_PEERS_LIMIT
  | .only amount => amount

/-- `impl From<i32> for PeersWanted`: non-positive requests normalise to
`AsManyAsPossible`; positive ones are capped at `TORRENT_PEERS_LIMIT`. -/
def PeersWanted.fromI32 (value : Int) : PeersWanted :=
  if value ≤ 0 then .asManyAsPossible
  else .only (min value.toNat TORRENT_PEERS_LIMIT)

/-- The `tracker_policy` section of the core configuration. -/
structure TrackerPolicy where
  max_peer_timeout : Nat
  remove_peerless_torrents : Bool
  persistent_torrent_completed_stat : Bool
deriving DecidableEq, Repr

/-- `TorrentsManager::cleanup_torrents`: computes the cutoff
`now - max_peer_timeout` (saturating at zero, `unwrap_or_default` in the
source), removes inactive peers, and, when the policy enables it, removes
peerless torrents. -/
def TorrentsManager.cleanup_torrents (policy : TrackerPolicy) (now : Nat) (ts : Torrents) :
    Torrents :=
  let current_cutoff := now - policy.max_peer_timeout
  let ts1 := InMemoryTorrentRepository.remove_inactive_peers ts current_cutoff
  if policy.remove_peerless_torrents then
    InMemoryTorrentRepository.remove_peerless_torrents ts1
  else ts1

/-- `AnnounceHandler::upsert_peer_and_get_stats`: snapshots the swarm
metadata, upserts the peer, snapshots again, and if the two snapshots differ
calls `persist_stats`, which calls `save_persistent_torrent(info_hash,
after.downloaded)` when `persistent_torrent_completed_stat` is enabled. The
source drops the database call's `Result` (`drop(...)`), so the announce
outcome can not depend on it; the third component records the save call (the
arguments passed), `none` when no save is issued. -/
def AnnounceHandler.upsert_peer_and_get_stats (policy : TrackerPolicy) (ts : Torrents)
    (ih : InfoHash) (p : Peer) : Torrents × SwarmMetadata × Option (InfoHash × Nat) :=
  let swarm_metadata_before := InMemoryTorrentRepository.get_swarm_metadata ts ih
  let ts' := InMemoryTorrentRepository.upsert_peer ts ih p
  let swarm_metadata_after := InMemoryTorrentRepository.get_swarm_metadata ts' ih
  let saveCall :=
    if swarm_metadata_before ≠ swarm_metadata_after ∧
        policy.persistent_torrent_completed_stat then
      some (ih, swarm_metadata_after.downloaded)
    else none
  (ts', swarm_metadata_after, saveCall)

/-- The `downloaded` counter an observer sees for `ih` (0 when absent). -/
def downloadedOf (ts : Torrents) (ih : InfoHash) : Nat :=
  match Torrents.get ts ih with
  | some e => e.downloaded
  | none => 0

/-- Whether `pid` is in `ih`'s peer table (false when the entry is absent). -/
def peerKnown (ts : Torrents) (ih : InfoHash) (pid : PeerId) : Bool :=
  match Torrents.get ts ih with
  | some e => e.hasPeer pid
  | none => false

/-- Error of `whitelist::authorization` (`WhitelistError`). -/
inductive WhitelistError where
  | torrentNotWhitelisted (info_hash : InfoHash)
deriving DecidableEq, Repr

/-- The in-memory whitelist: the set of allowed infohashes. -/
abbrev InMemoryWhitelist := List InfoHash

/-- `WhitelistAuthorization::authorize`: in public mode (`listed == false`)
every torrent is authorized; in listed mode only whitelisted torrents are. -/
def WhitelistAuthorization.authorize (listed : Bool) (whitelist : InMemoryWhitelist)
    (ih : InfoHash) : Except WhitelistError Unit :=
  if !listed then Except.ok ()
  else if whitelist.contains ih then Except.ok ()
  else Except.error (.torrentNotWhitelisted ih)

/-- Modelled from the spec: `torrust_tracker_primitives::core::ScrapeData`
(not under the verified sources) holds `files: HashMap<InfoHash,
SwarmMetadata>` (declared so in the scrape-handler doc comment of the
source). The map is modelled as an association list with map-insert
(overwrite) semantics; its list order is an artifact of the model — the
source's `HashMap` iteration order is unspecified. -/
abbrev ScrapeData := List (InfoHash × SwarmMetadata)

/-- `ScrapeData::add_file`: `HashMap` insert — overwrites the entry when the
key is already present, appends a fresh entry otherwise. -/
def ScrapeData.add_file (sd : ScrapeData) (ih : InfoHash) (m : SwarmMetadata) : ScrapeData :=
  if sd.any (fun kv => kv.1 = ih) then
    sd.map (fun kv => if kv.1 = ih then (ih, m) else kv)
  else sd ++ [(ih, m)]

/-- Map lookup into a `ScrapeData`. -/
def ScrapeData.lookupFile (sd : ScrapeData) (ih : InfoHash) : Option SwarmMetadata :=
  (sd.find? (fun kv => kv.1 = ih)).map (fun kv => kv.2)

/-- Number of entries of a `ScrapeData` carrying the key `ih`. -/
def ScrapeData.countKey (sd : ScrapeData) (ih : InfoHash) : Nat :=
  (sd.filter (fun kv => kv.1 = ih)).length

/-- The body of the `for` loop of `ScrapeHandler::scrape`: the swarm metadata
reported for one requested infohash — the repository data when the whitelist
authorization succeeds, zeroed metadata otherwise. -/
def ScrapeHandler.fileMetadata (listed : Bool) (whitelist : InMemoryWhitelist)
    (ts : Torrents) (ih : InfoHash) : SwarmMetadata :=
  match WhitelistAuthorization.authorize listed whitelist ih with
  | Except.ok _ => InMemoryTorrentRepository.get_swarm_metadata ts ih
  | Except.error _ => SwarmMetadata.zeroed

/-- The `for` loop of `ScrapeHandler::scrape` over the requested infohashes,
threading the accumulated `ScrapeData`. -/
def ScrapeHandler.scrapeLoop (listed : Bool) (whitelist : InMemoryWhitelist) (ts : Torrents) :
    List InfoHash → ScrapeData → ScrapeData
  | [], sd => sd
  | ih :: rest, sd =>
      ScrapeHandler.scrapeLoop listed whitelist ts rest
        (sd.add_file ih (ScrapeHandler.fileMetadata listed whitelist ts ih))

/-- `ScrapeHandler::scrape`: starts from `ScrapeData::empty()` and adds one
file per requested infohash. It only reads the torrents map (`torrents.get`);
no torrent entry is created, so the repository state is unchanged and does
not appear in the result type. -/
def ScrapeHandler.scrape (listed : Bool) (whitelist : InMemoryWhitelist) (ts : Torrents)
    (info_hashes : List InfoHash) : ScrapeData :=
  ScrapeHandler.scrapeLoop listed whitelist ts info_hashes []

/-- `authentication::PeerKey`: a key together with an optional expiration
timestamp (whole seconds since the Unix epoch); `none` means permanent. -/
structure PeerKey where
  key : Key
  valid_until : Option Nat
deriving DecidableEq, Repr

/-- Error type of `authentication::key` (`key::Error`). -/
inductive AuthError where
  | unableToReadKey (key : Key)
  | keyExpired
deriving DecidableEq, Repr

/-- The `private_mode` section of the core configuration. -/
structure PrivateMode where
  check_keys_expiration : Bool
deriving DecidableEq, Repr

/-- The slice of `torrust_tracker_configuration::Core` consumed by the
authentication service (`private` is a Lean keyword, hence `isPrivate`). -/
structure Core where
  isPrivate : Bool
  private_mode : Option PrivateMode
deriving DecidableEq, Repr

/-- `key::verify_key_expiration`: an expiring key fails verification once
`valid_until` is strictly before the current time; permanent keys always
verify. -/
def verify_key_expiration (auth_key : PeerKey) (current_time : Nat) :
    Except AuthError Unit :=
  match auth_key.valid_until with
  | some valid_until =>
      if valid_until < current_time then Except.error AuthError.keyExpired
      else Except.ok ()
  | none => Except.ok ()

/-- The in-memory key repository: key string → registered `PeerKey`. -/
abbrev InMemoryKeyRepository := Key → Option PeerKey

/-- `AuthenticationService::verify_auth_key`: looks the key up; when found,
the expiration check runs unless `private_mode` is present with
`check_keys_expiration == false` (an absent `private_mode` checks). -/
def AuthenticationService.verify_auth_key (config : Core) (repo : InMemoryKeyRepository)
    (key : Key) (now : Nat) : Except AuthError Unit :=
  match repo key with
  | none => Except.error (AuthError.unableToReadKey key)
  | some peerKey =>
      match config.private_mode with
      | some private_mode =>
          if private_mode.check_keys_expiration then verify_key_expiration peerKey now
          else Except.ok ()
      | none => verify_key_expiration peerKey now

/-- `AuthenticationService::authenticate`: in private mode the key is
verified against the repository; in public mode authentication always
succeeds. -/
def AuthenticationService.authenticate (config : Core) (repo : InMemoryKeyRepository)
    (key : Key) (now : Nat) : Except AuthError Unit :=
  if config.isPrivate then AuthenticationService.verify_auth_key config repo key now
  else Except.ok ()

/-- The effective expiration-check flag: `private_mode` resolved with its
default (an absent `private_mode` checks expiration). -/
def Core.checksKeysExpiration (config : Core) : Bool :=
  match config.private_mode with
  | some private_mode => private_mode.check_keys_expiration
  | none => true

/-- `DurationSinceUnixEpoch` stores seconds as a `u64`. -/
def U64_SECS_BOUND : Nat := 2 ^ 64

/-- `CurrentClock::now_add(&lifetime)`: checked addition on the `u64`
seconds of the timestamp; `none` when the sum overflows. -/
def now_add (now : Nat) (lifetime : Nat) : Option Nat :=
  if now + lifetime < U64_SECS_BOUND then some (now + lifetime) else none

/-- `authentication::key::generate_key`: couples a fresh random key (passed
in as `random_key`: the embedding abstracts the RNG) with
`valid_until = now + lifetime` for an expiring key, or no expiration for a
permanent one. The source unwraps `CurrentClock::now_add` — its doc comment
says "Panics if the addition of the lifetime to the current time overflows" —
so an overflowing sum is a panic, modelled as `none`. -/
def generate_key (random_key : Key) (now : Nat) (lifetime : Option Nat) : Option PeerKey :=
  match lifetime with
  | some lt => (now_add now lt).map (fun vu => { key := random_key, valid_until := some vu })
  | none => some { key := random_key, valid_until := none }

/-- Errors of the database drivers (`databases::error::Error`), restricted
to the variants the whitelist operations can produce: `insertFailed` is the
driver's explicit zero-rows check; `uniqueConstraintViolation` models the
`rusqlite` error raised by the `UNIQUE(info_hash)` constraint and propagated
by the `?` operator. -/
inductive DatabaseError where
  | insertFailed
  | uniqueConstraintViolation
deriving DecidableEq, Repr

/-- The `whitelist` table of the SQLite database: a list of rows whose
`info_hash` column is `UNIQUE` (every operation below preserves row
uniqueness). -/
abbrev WhitelistTable := List InfoHash

/-- `Sqlite::add_info_hash_to_whitelist`: a plain
`INSERT INTO whitelist (info_hash) VALUES (?)` — no `OR IGNORE`/`ON
CONFLICT` — so inserting an infohash already present violates the `UNIQUE`
constraint and the `?` operator returns the database error; otherwise the
row is appended. -/
def Sqlite.add_info_hash_to_whitelist (table : WhitelistTable) (ih : InfoHash) :
    Except DatabaseError WhitelistTable :=
  if table.contains ih then Except.error DatabaseError.uniqueConstraintViolation
  else Except.ok (table ++ [ih])

/-- `Sqlite::load_whitelist`: `SELECT info_hash FROM whitelist`. -/
def Sqlite.load_whitelist (table : WhitelistTable) : List InfoHash :=
  table

/-- `CookieTimeValues` of the UDP handlers: the issue time for new cookies
and the validity window for presented cookies. Times are the source's `f64`
seconds, modelled as rationals. `CookieTimeValues::new` sets
`valid_range = (now - cookie_lifetime - 1.0) .. (now + 1.0)`. -/
structure CookieTimeValues where
  issue_time : ℚ
  valid_range_start : ℚ
  valid_range_end : ℚ
deriving Repr

/-- `CookieTimeValues::new(cookie_lifetime)` at clock time `now`. -/
def CookieTimeValues.new (cookie_lifetime : ℚ) (now : ℚ) : CookieTimeValues :=
  { issue_time := now
    valid_range_start := now - cookie_lifetime - 1
    valid_range_end := now + 1 }

/-- Modelled from the spec: `connection_cookie::check` (not under the
verified sources) recovers the cookie's `issue_time` (here passed directly:
the claim concerns a cookie minted for, and presented from, the same source,
so the fingerprint XOR round-trips) and accepts iff it lies in the validity
window `[now - cookie_lifetime - 1, now + 1]` ("Accept iff `issue_time ∈
[now - cookie_lifetime - 1, now + 1]`"). -/
def connection_cookie_check (issue_time : ℚ) (v : CookieTimeValues) : Bool :=
  decide (v.valid_range_start ≤ issue_time ∧ issue_time ≤ v.valid_range_end)

/-- Fixture: the peer making a request (socket address `(9, 9)`). -/
def clientPeerFixture : Peer :=
  { peer_id := 1, peer_addr := { ip := 9, port := 9 }, updated := 0, uploaded := 0
    downloaded := 0, left := 0, event := AnnounceEvent.started }

/-- Fixture: a swarm member distinct from the requesting client. -/
def swarmPeerFixture (pid ip : Nat) : Peer :=
  { peer_id := pid, peer_addr := { ip := ip, port := 8080 }, updated := 0, uploaded := 0
    downloaded := 0, left := 0, event := AnnounceEvent.started }

/-- Fixture: a repository holding one torrent (infohash 0) with two peers,
neither at the client's socket address. -/
def twoPeerTorrentsFixture : Torrents :=
  fun k =>
    if k = 0 then
      some { peers := [swarmPeerFixture 2 1, swarmPeerFixture 3 2], downloaded := 0 }
    else none

/-- Fixture: the empty repository. -/
def emptyTorrentsFixture : Torrents :=
  fun _ => none

/-- Fixture: a tracker policy with torrent persistence enabled. -/
def persistPolicyFixture : TrackerPolicy :=
  { max_peer_timeout := 120, remove_peerless_torrents := false
    persistent_torrent_completed_stat := true }

/-- Fixture: a seeder announcing (event `Started`, `left = 0`). -/
def seederPeerFixture : Peer :=
  { peer_id := 4, peer_addr := { ip := 3, port := 8080 }, updated := 0, uploaded := 0
    downloaded := 0, left := 0, event := AnnounceEvent.started }

/-- Fixture: a maintenance policy (timeout 7 s, peerless removal on). -/
def cleanupPolicyFixture : TrackerPolicy :=
  { max_peer_timeout := 7, remove_peerless_torrents := true
    persistent_torrent_completed_stat := false }

/-- Fixture: a peer last seen at second 5. -/
def freshPeerFixture : Peer :=
  { peer_id := 6, peer_addr := { ip := 4, port := 8080 }, updated := 5, uploaded := 0
    downloaded := 0, left := 0, event := AnnounceEvent.started }

/-- Fixture: a repository holding one torrent with `freshPeerFixture`. -/
def cleanupTorrentsFixture : Torrents :=
  fun k => if k = 0 then some { peers := [freshPeerFixture], downloaded := 0 } else none

/-- Fixture: the entry that survives `cleanup_torrents` at `now = 10` over
`cleanupTorrentsFixture` (cutoff 3, `freshPeerFixture` is kept). -/
def cleanupSurvivorEntryFixture : TorrentEntry :=
  { peers := [freshPeerFixture], downloaded := 0 }

/-- Fixture: a private-mode configuration with the default (absent)
`private_mode` section. -/
def privateCoreFixture : Core :=
  { isPrivate := true, private_mode := none }

/-- Fixture: a registered key `7` that expired at second 5. -/
def expiredKeyRepoFixture : InMemoryKeyRepository :=
  fun k => if k = 7 then some { key := 7, valid_until := some 5 } else none

/-- Fixture: a listed-mode scrape of the un-whitelisted infohash 0 against a
repository that does hold torrent 0. -/
def listedScrapeTorrentsFixture : Torrents :=
  fun k => if k = 0 then some { peers := [swarmPeerFixture 2 1], downloaded := 3 } else none

/-- `downloadedOf` after `Torrents.set` at the written key. -/
theorem downloadedOf_set (ts : Torrents) (ih : InfoHash) (e : TorrentEntry) :
    downloadedOf (Torrents.set ts ih e) ih = e.downloaded := by
  simp [downloadedOf, Torrents.get, Torrents.set]

/-- **C1** (code bug, in_memory.rs line 76): with torrent 0 holding two
peers at addresses other than the client's, a request for at most one peer
(`PeersWanted::only(1)`, whose `limit()` is 1) returns two peers, because
`get_peers_for` passes `max(limit, TORRENT_PEERS_LIMIT)` — instead of the
documented `min` — down to the entry. `min(limit, TORRENT_PEERS_LIMIT) = 1`,
so the claimed bound is violated; the repository's own announce test
(`it_should_allow_peers_to_get_only_a_subset_of_the_peers_in_the_swarm`)
asserts exactly one peer for this request. -/
theorem get_peers_for_exceeds_requested_limit :
    (InMemoryTorrentRepository.get_peers_for twoPeerTorrentsFixture 0 clientPeerFixture
        (PeersWanted.only 1).limit).length = 2 ∧
    min (PeersWanted.only 1).limit TORRENT_PEERS_LIMIT = 1 := by
  constructor
  · decide
  · decide

/-- **C2**: a `Completed` announce increments the torrent's `downloaded`
counter by exactly one iff the announcing `PeerId` was already present in
the peer table immediately before the upsert; in every other case (first
announce being `Completed` included, and all non-`Completed` events) the
counter is unchanged. -/
theorem upsert_peer_downloaded_increment_iff_known (ts : Torrents) (ih : InfoHash) (p : Peer) :
    downloadedOf (InMemoryTorrentRepository.upsert_peer ts ih p) ih =
      if p.event = AnnounceEvent.completed ∧ peerKnown ts ih p.peer_id = true then
        downloadedOf ts ih + 1
      else downloadedOf ts ih := by
  unfold InMemoryTorrentRepository.upsert_peer
  rw [downloadedOf_set]
  unfold downloadedOf peerKnown
  cases h : Torrents.get ts ih with
  | none =>
      simp [TorrentEntry.upsert_peer, TorrentEntry.new, TorrentEntry.hasPeer]
  | some e =>
      simp only [Option.getD_some]
      unfold TorrentEntry.upsert_peer
      rfl

/-- `HashMap` insert, looked up at the inserted key. -/
theorem lookupFile_add_file_self (sd : ScrapeData) (ih : InfoHash) (m : SwarmMetadata) :
    (sd.add_file ih m).lookupFile ih = some m := by
  unfold ScrapeData.add_file ScrapeData.lookupFile
  split
  · rename_i hany
    induction sd with
    | nil => simp at hany
    | cons kv rest IH =>
        by_cases hk : kv.1 = ih
        · simp [hk, List.find?_cons]
        · have hr : rest.any (fun kv => kv.1 = ih) = true := by
            simpa [List.any_cons, hk] using hany
          simpa [List.find?_cons, hk] using IH hr
  · induction sd with
    | nil => simp [List.find?_cons]
    | cons kv rest IH =>
        rename_i hany
        have hk : ¬ kv.1 = ih := by
          intro hk
          simp [List.any_cons, hk] at hany
        have hr : ¬ rest.any (fun kv => kv.1 = ih) = true := by
          intro hr
          simp [List.any_cons, hr] at hany
        simpa [List.find?_cons, hk] using IH hr

/-- `HashMap` insert, looked up at a different key. -/
theorem lookupFile_add_file_other (sd : ScrapeData) (k : InfoHash) (m : SwarmMetadata)
    (ih : InfoHash) (hne : ih ≠ k) :
    (sd.add_file k m).lookupFile ih = sd.lookupFile ih := by
  have hkih : ¬ (k = ih) := fun h => hne h.symm
  unfold ScrapeData.add_file ScrapeData.lookupFile
  split
  · rename_i hany
    clear hany
    induction sd with
    | nil => rfl
    | cons kv rest IH =>
        by_cases hk : kv.1 = k
        · rw [List.map_cons, if_pos hk,
            List.find?_cons_of_neg _ (by simpa using hkih),
            List.find?_cons_of_neg _ (by simp [hk, hkih])]
          exact IH
        · rw [List.map_cons, if_neg hk]
          by_cases hih : kv.1 = ih
          · rw [List.find?_cons_of_pos _ (by simpa using hih),
              List.find?_cons_of_pos _ (by simpa using hih)]
          · rw [List.find?_cons_of_neg _ (by simpa using hih),
              List.find?_cons_of_neg _ (by simpa using hih)]
            exact IH
  · rw [List.find?_append]
    have hlast : List.find? (fun kv => decide (kv.1 = ih)) [(k, m)] = none := by
      rw [List.find?_cons_of_neg _ (by simpa using hkih)]
      rfl
    rw [hlast]
    simp

/-- The scrape loop, looked up at any key: every requested infohash ends up
mapped to its per-file metadata; other keys keep the accumulator's value. -/
theorem scrapeLoop_lookupFile (listed : Bool) (whitelist : InMemoryWhitelist)
    (ts : Torrents) (ihs : List InfoHash) (sd : ScrapeData) (ih : InfoHash) :
    (ScrapeHandler.scrapeLoop listed whitelist ts ihs sd).lookupFile ih =
      if ih ∈ ihs then some (ScrapeHandler.fileMetadata listed whitelist ts ih)
      else sd.lookupFile ih := by
  induction ihs generalizing sd with
  | nil => simp [ScrapeHandler.scrapeLoop]
  | cons ih0 rest IH =>
      simp only [ScrapeHandler.scrapeLoop]
      rw [IH]
      by_cases hmem : ih ∈ rest
      · simp [hmem]
      · by_cases heq : ih = ih0
        · subst heq
          simp [hmem, lookupFile_add_file_self]
        · simp [hmem, heq, lookupFile_add_file_other _ _ _ _ heq]

/-- **C3**: scrape answers every requested infohash: each input infohash is
mapped in the returned `ScrapeData` to its per-file metadata, which is the
repository's swarm metadata when the whitelist authorization succeeds and
zeroed metadata (`{0,0,0}`) when the authorization fails; for an unknown
torrent the repository metadata itself is zeroed, so unknown infohashes also
report `{0,0,0}`. No individual infohash produces an error (the scrape's
result type has no error channel and every input key is present), and the
handler only reads the torrents map — `ScrapeHandler.scrape` consumes
`Torrents` without producing an updated map, mirroring the source, which
only calls `torrents.get` — so no torrent entry is created. -/
theorem scrape_reports_every_requested_infohash (listed : Bool)
    (whitelist : InMemoryWhitelist) (ts : Torrents) (info_hashes : List InfoHash)
    (ih : InfoHash) (hmem : ih ∈ info_hashes) :
    (ScrapeHandler.scrape listed whitelist ts info_hashes).lookupFile ih =
      some (ScrapeHandler.fileMetadata listed whitelist ts ih) ∧
    (WhitelistAuthorization.authorize listed whitelist ih = Except.ok () →
      ScrapeHandler.fileMetadata listed whitelist ts ih =
        InMemoryTorrentRepository.get_swarm_metadata ts ih) ∧
    (∀ e, WhitelistAuthorization.authorize listed whitelist ih = Except.error e →
      ScrapeHandler.fileMetadata listed whitelist ts ih = SwarmMetadata.zeroed) ∧
    (Torrents.get ts ih = none →
      ScrapeHandler.fileMetadata listed whitelist ts ih = SwarmMetadata.zeroed) := by
  refine ⟨?_, ?_, ?_, ?_⟩
  · rw [ScrapeHandler.scrape, scrapeLoop_lookupFile]
    simp [hmem]
  · intro hok
    simp [ScrapeHandler.fileMetadata, hok]
  · intro e herr
    simp [ScrapeHandler.fileMetadata, herr]
  · intro hnone
    unfold ScrapeHandler.fileMetadata
    cases hauth : WhitelistAuthorization.authorize listed whitelist ih with
    | ok u => simp [InMemoryTorrentRepository.get_swarm_metadata, hnone]
    | error e => simp

/-- Witness for C3: scraping `[0]` in listed mode with an empty whitelist
reports zeroed metadata for infohash 0, by the theorem applied at this
concrete input. -/
theorem scrape_reports_every_requested_infohash_witness :
    (ScrapeHandler.scrape true [] listedScrapeTorrentsFixture [0]).lookupFile 0 =
      some SwarmMetadata.zeroed := by
  have h := scrape_reports_every_requested_infohash true [] listedScrapeTorrentsFixture
    [0] 0 (by decide)
  rw [h.1, h.2.2.1 (WhitelistError.torrentNotWhitelisted 0) rfl]

/-- Replacing the key-`k` entries of a `ScrapeData` by `(k, m)` does not
change how many entries carry any given key. -/
theorem countKey_map_replace (sd : ScrapeData) (k : InfoHash) (m : SwarmMetadata)
    (ih : InfoHash) :
    ScrapeData.countKey (sd.map (fun kv => if kv.1 = k then (k, m) else kv)) ih =
      sd.countKey ih := by
  unfold ScrapeData.countKey
  rw [List.filter_map, List.length_map]
  congr 1
  apply List.filter_congr
  intro kv _
  by_cases hk : kv.1 = k
  · simp [hk]
  · simp [hk]

/-- `HashMap` insert, counted at the inserted key: an absent key gains its
single entry, a present key keeps its count. -/
theorem countKey_add_file_self (sd : ScrapeData) (k : InfoHash) (m : SwarmMetadata) :
    (sd.add_file k m).countKey k = if sd.countKey k = 0 then 1 else sd.countKey k := by
  unfold ScrapeData.add_file
  split
  · rename_i hany
    have hne : sd.countKey k ≠ 0 := by
      obtain ⟨x, hx, hpx⟩ := List.any_eq_true.mp hany
      unfold ScrapeData.countKey
      have : x ∈ sd.filter (fun kv => decide (kv.1 = k)) := List.mem_filter.mpr ⟨hx, hpx⟩
      exact Nat.pos_iff_ne_zero.mp (List.length_pos.mpr (List.ne_nil_of_mem this))
    rw [if_neg hne, countKey_map_replace]
  · rename_i hany
    have hzero : sd.countKey k = 0 := by
      unfold ScrapeData.countKey
      rw [List.length_eq_zero, List.filter_eq_nil_iff]
      intro kv hkv
      by_contra hp
      exact hany (List.any_eq_true.mpr ⟨kv, hkv, by simpa using hp⟩)
    unfold ScrapeData.countKey at hzero ⊢
    rw [if_pos hzero, List.filter_append, List.length_append, hzero]
    simp

/-- `HashMap` insert, counted at a different key. -/
theorem countKey_add_file_other (sd : ScrapeData) (k : InfoHash) (m : SwarmMetadata)
    (ih : InfoHash) (hne : ih ≠ k) :
    (sd.add_file k m).countKey ih = sd.countKey ih := by
  unfold ScrapeData.add_file
  split
  · rw [countKey_map_replace]
  · unfold ScrapeData.countKey
    rw [List.filter_append, List.length_append]
    have hkih : ¬ (k = ih) := fun h => hne h.symm
    have : List.filter (fun kv => decide (kv.1 = ih)) [(k, m)] = [] := by
      simp [hkih]
    rw [this]
    rfl

/-- The scrape loop, counted at any key: every requested infohash ends up
with exactly one entry (the accumulator's count when it already had one),
other keys keep the accumulator's count. -/
theorem scrapeLoop_countKey (listed : Bool) (whitelist : InMemoryWhitelist) (ts : Torrents)
    (ihs : List InfoHash) (sd : ScrapeData) (ih : InfoHash) :
    (ScrapeHandler.scrapeLoop listed whitelist ts ihs sd).countKey ih =
      if ih ∈ ihs then (if sd.countKey ih = 0 then 1 else sd.countKey ih)
      else sd.countKey ih := by
  induction ihs generalizing sd with
  | nil => simp [ScrapeHandler.scrapeLoop]
  | cons ih0 rest IH =>
      simp only [ScrapeHandler.scrapeLoop]
      rw [IH]
      by_cases heq : ih = ih0
      · subst heq
        rw [countKey_add_file_self]
        by_cases hmem : ih ∈ rest
        · simp only [hmem, if_true, List.mem_cons, true_or]
          rcases Nat.eq_zero_or_pos (sd.countKey ih) with hz | hp
          · simp [hz]
          · have h1 : sd.countKey ih ≠ 0 := Nat.pos_iff_ne_zero.mp hp
            simp [h1]
        · simp [hmem]
      · rw [countKey_add_file_other _ _ _ _ heq]
        by_cases hmem : ih ∈ rest
        · simp [hmem, heq]
        · simp [hmem, heq]

/-- **C9** (counterexample): a scrape of the duplicate list `[0, 0]` returns
a `ScrapeData` with a single entry — `files` is a `HashMap`, so the second
`add_file` overwrites the first — not one entry per input infohash (the
input has two). -/
theorem scrape_duplicate_infohashes_collapse :
    (ScrapeHandler.scrape false [] emptyTorrentsFixture [0, 0]).length = 1 ∧
    [0, 0].length = 2 := by
  constructor
  · decide
  · decide

/-- **C9** (amended): the returned mapping contains exactly one entry per
*distinct* input infohash and no entry for infohashes that were not
requested. (No order guarantee can be stated: `ScrapeData.files` is a
`HashMap`, whose iteration order is unspecified; the association-list order
of the model is an artifact.) -/
theorem scrape_one_entry_per_distinct_infohash (listed : Bool)
    (whitelist : InMemoryWhitelist) (ts : Torrents) (info_hashes : List InfoHash)
    (ih : InfoHash) :
    (ScrapeHandler.scrape listed whitelist ts info_hashes).countKey ih =
      if ih ∈ info_hashes then 1 else 0 := by
  rw [ScrapeHandler.scrape, scrapeLoop_countKey]
  rfl

/-- **C5**: during an announce, the handler issues the
`save_persistent_torrent(info_hash, after.downloaded)` call exactly when the
swarm-metadata snapshot taken after the upsert differs from the snapshot
taken before it and `persistent_torrent_completed_stat` is enabled; any save
that is issued carries the post-upsert `downloaded` value; and the returned
stats are the post-upsert swarm metadata of the updated repository. The
source drops the database call's `Result` (`drop(...)`), so a persistence
failure cannot alter the announce outcome: the embedded handler has no
error channel at all. -/
theorem upsert_peer_and_get_stats_persists_on_change (policy : TrackerPolicy)
    (ts : Torrents) (ih : InfoHash) (p : Peer) :
    ((AnnounceHandler.upsert_peer_and_get_stats policy ts ih p).2.2 ≠ none ↔
      (InMemoryTorrentRepository.get_swarm_metadata ts ih ≠
        InMemoryTorrentRepository.get_swarm_metadata
          (InMemoryTorrentRepository.upsert_peer ts ih p) ih ∧
       policy.persistent_torrent_completed_stat = true)) ∧
    ((AnnounceHandler.upsert_peer_and_get_stats policy ts ih p).2.2 = none ∨
      (AnnounceHandler.upsert_peer_and_get_stats policy ts ih p).2.2 =
        some (ih, (InMemoryTorrentRepository.get_swarm_metadata
          (InMemoryTorrentRepository.upsert_peer ts ih p) ih).downloaded)) ∧
    (AnnounceHandler.upsert_peer_and_get_stats policy ts ih p).2.1 =
      InMemoryTorrentRepository.get_swarm_metadata
        (InMemoryTorrentRepository.upsert_peer ts ih p) ih ∧
    (AnnounceHandler.upsert_peer_and_get_stats policy ts ih p).1 =
      InMemoryTorrentRepository.upsert_peer ts ih p := by
  unfold AnnounceHandler.upsert_peer_and_get_stats
  dsimp only
  refine ⟨?_, ?_, rfl, rfl⟩
  · split
    · rename_i hcond
      simpa using hcond
    · rename_i hcond
      simpa using hcond
  · split
    · right
      rfl
    · left
      rfl

/-- Witness for C5: announcing a first seeder for torrent 0 with persistence
enabled changes the swarm metadata, so the handler issues the save call
`(0, 0)` (post-upsert `downloaded` is 0); obtained by applying the theorem
at this concrete input. -/
theorem upsert_peer_and_get_stats_persists_on_change_witness :
    (AnnounceHandler.upsert_peer_and_get_stats persistPolicyFixture emptyTorrentsFixture 0
      seederPeerFixture).2.2 = some (0, 0) := by
  have h := (upsert_peer_and_get_stats_persists_on_change persistPolicyFixture
    emptyTorrentsFixture 0 seederPeerFixture).2.1
  rcases h with h | h
  · exact absurd h (by decide)
  · rw [h]
    decide

/-- **C4**: `authenticate` in public mode (`private == false`) always
returns `Ok`, whatever the key; a registered permanent key (absent
`valid_until`) always authenticates; and a registered key whose
`valid_until` is in the past yields the `Expired` error exactly when the
tracker is private and the (defaulted) `check_keys_expiration` flag is on —
with `check_keys_expiration == false` it returns `Ok`. -/
theorem authenticate_key_expiration_cases (config : Core) (repo : InMemoryKeyRepository)
    (key : Key) (now : Nat) :
    (config.isPrivate = false →
      AuthenticationService.authenticate config repo key now = Except.ok ()) ∧
    (∀ pk, repo key = some pk → pk.valid_until = none →
      AuthenticationService.authenticate config repo key now = Except.ok ()) ∧
    (∀ pk t, repo key = some pk → pk.valid_until = some t → t < now →
      AuthenticationService.authenticate config repo key now =
        if config.isPrivate = true ∧ config.checksKeysExpiration = true then
          Except.error AuthError.keyExpired
        else Except.ok ()) := by
  refine ⟨?_, ?_, ?_⟩
  · intro hpub
    simp [AuthenticationService.authenticate, hpub]
  · intro pk hpk hperm
    unfold AuthenticationService.authenticate AuthenticationService.verify_auth_key
    cases hpriv : config.isPrivate with
    | false => simp
    | true =>
        rw [hpk]
        cases hpm : config.private_mode with
        | none => simp [verify_key_expiration, hperm]
        | some private_mode =>
            cases hche : private_mode.check_keys_expiration with
            | false => simp [hche]
            | true => simp [hche, verify_key_expiration, hperm]
  · intro pk t hpk hvu hlt
    unfold AuthenticationService.authenticate AuthenticationService.verify_auth_key
      Core.checksKeysExpiration
    cases hpriv : config.isPrivate with
    | false => simp
    | true =>
        rw [hpk]
        cases hpm : config.private_mode with
        | none => simp [verify_key_expiration, hvu, hlt]
        | some private_mode =>
            cases hche : private_mode.check_keys_expiration with
            | false => simp [hche]
            | true => simp [hche, verify_key_expiration, hvu, hlt]

/-- Witness for C4: with the private default configuration and the
repository holding key 7 expired at second 5, authenticating key 7 at second
10 yields the `Expired` error; obtained by applying the theorem at this
concrete input. -/
theorem authenticate_key_expiration_cases_witness :
    AuthenticationService.authenticate privateCoreFixture expiredKeyRepoFixture 7 10 =
      Except.error AuthError.keyExpired := by
  have h := (authenticate_key_expiration_cases privateCoreFixture expiredKeyRepoFixture
    7 10).2.2 { key := 7, valid_until := some 5 } 5 rfl rfl (by decide)
  simpa [privateCoreFixture, Core.checksKeysExpiration] using h

/-- Any peer surviving `remove_inactive_peers` with cutoff `now - timeout`
has been seen within the timeout. -/
theorem remove_inactive_peers_age_bound (ts : Torrents) (now timeout : Nat)
    (ih : InfoHash) (e : TorrentEntry) (p : Peer)
    (h : Torrents.get
      (InMemoryTorrentRepository.remove_inactive_peers ts (now - timeout)) ih = some e)
    (hp : p ∈ e.peers) : now - p.updated ≤ timeout := by
  unfold Torrents.get InMemoryTorrentRepository.remove_inactive_peers at h
  cases hts : ts ih with
  | none => rw [hts] at h; simp at h
  | some e0 =>
      rw [hts] at h
      simp only [Option.map_some'] at h
      injection h with h
      subst h
      unfold TorrentEntry.remove_inactive_peers at hp
      simp only [List.mem_filter] at hp
      have hage := of_decide_eq_true hp.2
      omega

/-- **C6**: after a maintenance tick (`cleanup_torrents` at clock time
`now`), every peer remaining in any torrent entry satisfies
`now - updated ≤ max_peer_timeout`, and when `remove_peerless_torrents` is
enabled no entry with an empty peer table remains. -/
theorem cleanup_torrents_bounds_peer_age_and_removes_peerless
    (policy : TrackerPolicy) (now : Nat) (ts : Torrents) :
    (∀ ih e p,
      Torrents.get (TorrentsManager.cleanup_torrents policy now ts) ih = some e →
      p ∈ e.peers → now - p.updated ≤ policy.max_peer_timeout) ∧
    (policy.remove_peerless_torrents = true →
      ∀ ih e,
        Torrents.get (TorrentsManager.cleanup_torrents policy now ts) ih = some e →
        e.peers ≠ []) := by
  constructor
  · intro ih e p h hp
    unfold TorrentsManager.cleanup_torrents at h
    by_cases hflag : policy.remove_peerless_torrents = true
    · rw [if_pos hflag] at h
      unfold Torrents.get InMemoryTorrentRepository.remove_peerless_torrents at h
      split at h
      · rename_i e' hinner
        split at h
        · simp at h
        · injection h with h
          subst h
          exact remove_inactive_peers_age_bound ts now policy.max_peer_timeout ih e' p
            hinner hp
      · simp at h
    · rw [if_neg hflag] at h
      exact remove_inactive_peers_age_bound ts now policy.max_peer_timeout ih e p h hp
  · intro hflag ih e h
    unfold TorrentsManager.cleanup_torrents at h
    rw [if_pos hflag] at h
    unfold Torrents.get InMemoryTorrentRepository.remove_peerless_torrents at h
    split at h
    · rename_i e' hinner
      split at h
      · simp at h
      · rename_i hemp
        injection h with h
        subst h
        simpa [List.isEmpty_iff] using hemp
    · simp at h

/-- Witness for C6: cleaning up at `now = 10` with timeout 7 and peerless
removal enabled, the surviving entry's peer (last seen at second 5) is
within the timeout and the entry is non-empty; obtained by applying the
theorem at this concrete input. -/
theorem cleanup_torrents_bounds_peer_age_and_removes_peerless_witness :
    (10 : Nat) - 5 ≤ 7 ∧ cleanupSurvivorEntryFixture.peers ≠ [] := by
  have h := cleanup_torrents_bounds_peer_age_and_removes_peerless cleanupPolicyFixture 10
    cleanupTorrentsFixture
  exact ⟨h.1 0 cleanupSurvivorEntryFixture freshPeerFixture (by decide) (by decide),
    h.2 rfl 0 cleanupSurvivorEntryFixture (by decide)⟩

/-- **C7** (counterexample): `generate_key` with a lifetime of
`2 ^ 64 - 1` seconds at clock second 1 panics — the source unwraps
`CurrentClock::now_add`, whose checked addition overflows the `u64`
timestamp — instead of returning a `DurationOverflow` error to the caller
(the function's return type, `PeerKey`, has no error channel at all). -/
theorem generate_key_panics_on_overflow_example :
    generate_key 0 1 (some (U64_SECS_BOUND - 1)) = none := by
  unfold generate_key now_add U64_SECS_BOUND
  norm_num

/-- **C7** (amended): `generate_key` returns a key expiring at
`now + lifetime` when that sum fits the `u64` timestamp, and panics
(`unwrap` of `None`, modelled as `none`) — it does not signal
`DurationOverflow` — when the sum overflows; a permanent key (no lifetime)
always succeeds. The `DurationOverflow` error of the claim is signalled by
`KeysHandler::add_peer_key`, which validates the duration before calling
`generate_key` and is not part of the verified sources. -/
theorem generate_key_unwrap_panics_on_overflow (random_key : Key) (now : Nat) :
    (∀ lifetime : Nat, generate_key random_key now (some lifetime) =
      if now + lifetime < U64_SECS_BOUND then
        some { key := random_key, valid_until := some (now + lifetime) }
      else none) ∧
    generate_key random_key now none =
      some { key := random_key, valid_until := none } := by
  constructor
  · intro lifetime
    have hgk : generate_key random_key now (some lifetime) =
        (now_add now lifetime).map
          (fun vu => { key := random_key, valid_until := some vu }) := rfl
    rw [hgk]
    unfold now_add
    split
    · rfl
    · rfl
  · rfl

/-- **C8** (counterexample): adding infohash 5 to an empty persistent
whitelist succeeds, and adding it again fails with the database error raised
by the `UNIQUE(info_hash)` constraint — the second add is not an idempotent
no-op (the repository's own driver test,
`it_should_fail_trying_to_add_the_same_infohash_twice`, asserts the same). -/
theorem add_info_hash_to_whitelist_not_idempotent_example :
    Sqlite.add_info_hash_to_whitelist [] 5 = Except.ok [5] ∧
    Sqlite.add_info_hash_to_whitelist [5] 5 =
      Except.error DatabaseError.uniqueConstraintViolation := by
  constructor
  · rfl
  · rfl

/-- **C8** (amended): adding a fresh infohash appends it and succeeds;
adding it a second time returns the `UNIQUE`-constraint error and leaves the
table unchanged, so after the two consecutive adds the loaded whitelist
still contains the infohash exactly once. -/
theorem add_info_hash_to_whitelist_duplicate_fails (table : WhitelistTable)
    (ih : InfoHash) (h : ih ∉ table) :
    Sqlite.add_info_hash_to_whitelist table ih = Except.ok (table ++ [ih]) ∧
    Sqlite.add_info_hash_to_whitelist (table ++ [ih]) ih =
      Except.error DatabaseError.uniqueConstraintViolation ∧
    (Sqlite.load_whitelist (table ++ [ih])).count ih = 1 := by
  refine ⟨?_, ?_, ?_⟩
  · unfold Sqlite.add_info_hash_to_whitelist
    rw [if_neg (by simpa using h)]
  · unfold Sqlite.add_info_hash_to_whitelist
    rw [if_pos (by simp)]
  · unfold Sqlite.load_whitelist
    rw [List.count_append, List.count_eq_zero.mpr h]
    simp

/-- Witness for C8 (amended): concretely, after adding 5 twice to the empty
whitelist the loaded whitelist holds 5 exactly once; obtained by applying
the theorem at this concrete input. -/
theorem add_info_hash_to_whitelist_duplicate_fails_witness :
    (Sqlite.load_whitelist ([] ++ [5])).count 5 = 1 :=
  (add_info_hash_to_whitelist_duplicate_fails [] 5 (by decide)).2.2

/-- **C10** (counterexample): with `cookie_lifetime = 2`, a connection id
minted at `t0 = 0` is still accepted at `now = 5/2`, although
`5/2 > t0 + cookie_lifetime = 2` — the claim's "rejected after
`t0 + cookie_lifetime`" clause fails, because the validity window's lower
bound is `now - cookie_lifetime - 1` (one extra second of slack). -/
theorem connection_cookie_accepted_after_lifetime_example :
    connection_cookie_check 0 (CookieTimeValues.new 2 (5/2)) = true ∧
    ¬ ((5 : ℚ)/2 ≤ 0 + 2) := by
  constructor
  · unfold connection_cookie_check CookieTimeValues.new
    simp only [decide_eq_true_eq]
    constructor <;> norm_num
  · norm_num

/-- **C10** (amended): a connection id carrying issue time `t0` presented
from its own source at time `t` is accepted iff `t0` lies in the validity
window of `CookieTimeValues::new`, i.e. iff
`t ∈ [t0 - 1, t0 + cookie_lifetime + 1]` — so it is accepted throughout
`[t0, t0 + cookie_lifetime]` and rejected only once `t` exceeds
`t0 + cookie_lifetime + 1` (the ±1 slack), not immediately after
`t0 + cookie_lifetime`. -/
theorem connection_cookie_acceptance_window (t0 t cookie_lifetime : ℚ) :
    connection_cookie_check t0 (CookieTimeValues.new cookie_lifetime t) = true ↔
      (t0 - 1 ≤ t ∧ t ≤ t0 + cookie_lifetime + 1) := by
  unfold connection_cookie_check CookieTimeValues.new
  simp only [decide_eq_true_eq]
  constructor
  · rintro ⟨h1, h2⟩
    constructor <;> linarith
  · rintro ⟨h1, h2⟩
    constructor <;> linarith

/-- Witness for C10 (amended): a cookie minted at second 0 with lifetime 2
is accepted at second 1; obtained by applying the theorem at this concrete
input. -/
theorem connection_cookie_acceptance_window_witness :
    connection_cookie_check 0 (CookieTimeValues.new 2 1) = true :=
  (connection_cookie_acceptance_window 0 1 2).mpr ⟨by norm_num, by norm_num⟩
